import Mathlib

/-!
Verification of the RAG console client core.

Shallow embedding of the core of the `rag_console` client:

* the streaming response decoder of `ragStream` (`src/front/client/lib/api.ts`),
  including the incremental UTF-8 text decoder (`TextDecoder` with
  `stream: true`) and the blank-line frame splitter;
* the auth session (`AuthContext`): `login`, `logout` and the global 401
  interceptor installed over `fetch`;
* the chat page engine (`ChatPage`): the history hydration loop, the send
  guard, and the settle-time metadata updates.

Text (JS strings) is modelled as a list of Unicode code points (`List Nat`);
bytes as `List Nat`.  JS falsiness of strings/numbers (`""` and `0` are falsy)
is modelled explicitly where the source relies on it.
-/

namespace RagConsole

/-- A JS string, as its list of Unicode code points. -/
abbrev Text := List Nat

/-- Code points of a string literal (for ASCII text these are also its
UTF-8 bytes). -/
def codes (s : String) : Text := s.data.map Char.toNat

/-! ## Incremental UTF-8 decoding (`new TextDecoder().decode(v, stream:true)`)

State machine of the WHATWG `utf-8 decode` algorithm, non-fatal mode: an
incomplete trailing sequence stays pending across chunks; invalid bytes emit
U+FFFD. -/

/-- Pending state of the incremental UTF-8 decoder. -/
structure Utf8State where
  needed : Nat
  codep : Nat
  lower : Nat
  upper : Nat
deriving DecidableEq

/-- Fresh decoder state: no continuation bytes expected. -/
def utf8Init : Utf8State := ⟨0, 0, 0x80, 0xBF⟩

/-- Handle one byte from the fresh state (`needed = 0`). -/
def utf8Start (b : Nat) : Utf8State × Text :=
  if b ≤ 0x7F then (utf8Init, [b])
  else if 0xC2 ≤ b ∧ b ≤ 0xDF then (⟨1, b % 0x20, 0x80, 0xBF⟩, [])
  else if 0xE0 ≤ b ∧ b ≤ 0xEF then
    (⟨2, b % 0x10, if b = 0xE0 then 0xA0 else 0x80,
      if b = 0xED then 0x9F else 0xBF⟩, [])
  else if 0xF0 ≤ b ∧ b ≤ 0xF4 then
    (⟨3, b % 0x8, if b = 0xF0 then 0x90 else 0x80,
      if b = 0xF4 then 0x8F else 0xBF⟩, [])
  else (utf8Init, [0xFFFD])

/-- One byte of the incremental UTF-8 decoder. On an invalid continuation
byte the decoder emits U+FFFD and reprocesses the byte from the fresh
state, as the WHATWG algorithm prescribes. -/
def utf8Step (st : Utf8State) (b : Nat) : Utf8State × Text :=
  if st.needed = 0 then utf8Start b
  else if st.lower ≤ b ∧ b ≤ st.upper then
    let cp := st.codep * 64 + b % 64
    if st.needed = 1 then (utf8Init, [cp])
    else (⟨st.needed - 1, cp, 0x80, 0xBF⟩, [])
  else
    let r := utf8Start b
    (r.1, 0xFFFD :: r.2)

/-- Decode a byte chunk, threading the decoder state (`stream: true`): a
trailing incomplete sequence is kept in the state, not flushed. -/
def utf8Decode : Utf8State → List Nat → Utf8State × Text
  | st, [] => (st, [])
  | st, b :: bs =>
    ((utf8Decode (utf8Step st b).1 bs).1,
      (utf8Step st b).2 ++ (utf8Decode (utf8Step st b).1 bs).2)

/-! ## Frame splitting (`ragStream` inner loop) -/

/-- `buffer.indexOf("\n\n")` followed by the two slices: the text before the
first blank line and the text after it, or `none` when no blank line occurs. -/
def splitFrame : Text → Option (Text × Text)
  | [] => none
  | [_] => none
  | c1 :: c2 :: rest =>
    if c1 = 10 ∧ c2 = 10 then some ([], rest)
    else
      match splitFrame (c2 :: rest) with
      | some (b, a) => some (c1 :: b, a)
      | none => none

/-- JS `WhiteSpace`/`LineTerminator` code points recognised by
`String.prototype.trim`. -/
def jsWhitespace (c : Nat) : Bool :=
  c == 9 || c == 10 || c == 11 || c == 12 || c == 13 || c == 32 ||
  c == 0xA0 || c == 0x1680 ||
  (decide (0x2000 ≤ c) && decide (c ≤ 0x200A)) ||
  c == 0x2028 || c == 0x2029 || c == 0x202F || c == 0x205F ||
  c == 0x3000 || c == 0xFEFF

/-- `String.prototype.trim`. -/
def jsTrim (t : Text) : Text :=
  ((t.dropWhile jsWhitespace).reverse.dropWhile jsWhitespace).reverse

/-- The literal `"data:"` marker. -/
def dataMarker : Text := codes "data:"

/-- The sentinel payload `"[DONE]"`. -/
def doneLit : Text := codes "[DONE]"

/-- `raw.startsWith("data:")`. -/
def hasMarker (t : Text) : Bool := dataMarker.isPrefixOf t

/-- The drained frames of a buffer: the inner `while` of `ragStream`.
Returns the payloads delivered to `onChunk` in order, the residual buffer,
and whether the `[DONE]` sentinel returned out of the decoder.  The fuel is
the buffer length; each complete frame consumes at least the two newline
characters, so the fuel never runs out on the real call (`drain`). -/
def drainAux : Nat → Text → List Text × Text × Bool
  | 0, buf => ([], buf, false)
  | fuel + 1, buf =>
    match splitFrame buf with
    | none => ([], buf, false)
    | some (before, after) =>
      let raw := jsTrim before
      if raw = [] then drainAux fuel after
      else if hasMarker raw then
        let payload := jsTrim (raw.drop 5)
        if payload = doneLit then ([], [], true)
        else
          let r := drainAux fuel after
          (payload :: r.1, r.2)
      else
        let r := drainAux fuel after
        (raw :: r.1, r.2)

/-- Drain every complete frame currently in the buffer. -/
def drain (buf : Text) : List Text × Text × Bool := drainAux buf.length buf

/-! ## The chunk loop of `ragStream` -/

/-- State of the stream decoder between chunk reads: the UTF-8 decoder
state, the accumulation buffer, and whether `[DONE]` has already returned
out of the loop (after which no further chunk is read). -/
structure DecState where
  u : Utf8State
  buffer : Text
  stopped : Bool
deriving DecidableEq

/-- Decoder state at the start of `ragStream`. -/
def initDec : DecState := ⟨utf8Init, [], false⟩

/-- Process one byte chunk from the reader: decode it, append to the
buffer, drain complete frames.  After the sentinel the function has
returned, so further chunks are never observed. -/
def processChunk (s : DecState) (bytes : List Nat) : DecState × List Text :=
  if s.stopped then (s, [])
  else
    let d := utf8Decode s.u bytes
    let r := drain (s.buffer ++ d.2)
    (⟨d.1, r.2.1, r.2.2⟩, r.1)

/-- All payloads delivered to `onChunk` over a sequence of chunks. -/
def runDec : DecState → List (List Nat) → List Text
  | _, [] => []
  | s, c :: cs => (processChunk s c).2 ++ runDec (processChunk s c).1 cs

/-- Decoder state after a sequence of chunks. -/
def runDecSt : DecState → List (List Nat) → DecState
  | s, [] => s
  | s, c :: cs => runDecSt (processChunk s c).1 cs

/-- The ordered payload sequence `ragStream` delivers for a chunk
sequence (the upstream closing after the last chunk). -/
def decodeStream (chunks : List (List Nat)) : List Text :=
  runDec initDec chunks

/-- Concatenation of a list of lists (the whole stream content of a
chunk sequence). -/
def listFlat : List (List α) → List α
  | [] => []
  | x :: xs => x ++ listFlat xs

/-! ## Decoder lemmas -/

/-- Incremental UTF-8 decoding splits over chunk concatenation: the state
threads through and the texts concatenate. -/
theorem utf8Decode_append : ∀ (xs ys : List Nat) (st : Utf8State),
    utf8Decode st (xs ++ ys) =
      ((utf8Decode (utf8Decode st xs).1 ys).1,
        (utf8Decode st xs).2 ++ (utf8Decode (utf8Decode st xs).1 ys).2) := by
  intro xs
  induction xs with
  | nil => intro ys st; simp [utf8Decode]
  | cons b bs ih =>
    intro ys st
    simp only [List.cons_append, utf8Decode]
    simp only [List.append_eq, ih, List.append_assoc]

/-- A found separator leaves a strictly shorter suffix. -/
theorem splitFrame_length : ∀ (t b a : Text),
    splitFrame t = some (b, a) → a.length + 2 ≤ t.length := by
  intro t
  induction t with
  | nil => intro b a h; simp [splitFrame] at h
  | cons c1 rest ih =>
    intro b a h
    cases rest with
    | nil => simp [splitFrame] at h
    | cons c2 rest' =>
      rw [splitFrame] at h
      by_cases hc : c1 = 10 ∧ c2 = 10
      · simp only [if_pos hc, Option.some.injEq, Prod.mk.injEq] at h
        obtain ⟨hb, ha⟩ := h
        subst ha
        simp
      · simp only [if_neg hc] at h
        cases hs : splitFrame (c2 :: rest') with
        | none => rw [hs] at h; simp at h
        | some p =>
          obtain ⟨b', a'⟩ := p
          rw [hs] at h
          simp only [Option.some.injEq, Prod.mk.injEq] at h
          obtain ⟨hb, ha⟩ := h
          have hlen := ih b' a' hs
          subst ha
          simp only [List.length_cons] at hlen ⊢
          omega

/-- The first separator of a buffer stays the first separator after more
text is appended. -/
theorem splitFrame_append : ∀ (t b a ys : Text),
    splitFrame t = some (b, a) → splitFrame (t ++ ys) = some (b, a ++ ys) := by
  intro t
  induction t with
  | nil => intro b a ys h; simp [splitFrame] at h
  | cons c1 rest ih =>
    intro b a ys h
    cases rest with
    | nil => simp [splitFrame] at h
    | cons c2 rest' =>
      rw [splitFrame] at h
      by_cases hc : c1 = 10 ∧ c2 = 10
      · simp only [if_pos hc, Option.some.injEq, Prod.mk.injEq] at h
        obtain ⟨hb, ha⟩ := h
        subst hb; subst ha
        simp only [List.cons_append]
        rw [splitFrame]
        simp [hc]
      · simp only [if_neg hc] at h
        cases hs : splitFrame (c2 :: rest') with
        | none => rw [hs] at h; simp at h
        | some p =>
          obtain ⟨b', a'⟩ := p
          rw [hs] at h
          simp only [Option.some.injEq, Prod.mk.injEq] at h
          obtain ⟨hb, ha⟩ := h
          subst hb; subst ha
          have hrec := ih b' a' ys hs
          simp only [List.cons_append]
          rw [splitFrame]
          simp only [if_neg hc]
          rw [List.cons_append] at hrec
          rw [hrec]

/-- The drain result does not depend on the fuel, as long as the fuel
covers the buffer length. -/
theorem drainAux_congr : ∀ (f1 f2 : Nat) (buf : Text),
    buf.length ≤ f1 → buf.length ≤ f2 → drainAux f1 buf = drainAux f2 buf := by
  intro f1
  induction f1 with
  | zero =>
    intro f2 buf h1 h2
    have hb : buf = [] := List.length_eq_zero.mp (Nat.le_zero.mp h1)
    subst hb
    cases f2 with
    | zero => rfl
    | succ f2 => simp [drainAux, splitFrame]
  | succ f1 ih =>
    intro f2 buf h1 h2
    cases f2 with
    | zero =>
      have hb : buf = [] := List.length_eq_zero.mp (Nat.le_zero.mp h2)
      subst hb
      simp [drainAux, splitFrame]
    | succ f2 =>
      simp only [drainAux]
      cases hs : splitFrame buf with
      | none => rfl
      | some p =>
        obtain ⟨before, after⟩ := p
        have hlen := splitFrame_length buf before after hs
        have ha1 : after.length ≤ f1 := by omega
        have ha2 : after.length ≤ f2 := by omega
        simp only [ih f2 after ha1 ha2]

/-- Unfolding `drain` when the buffer holds no blank line. -/
theorem drain_none {buf : Text} (h : splitFrame buf = none) :
    drain buf = ([], buf, false) := by
  unfold drain
  cases hl : buf.length with
  | zero => simp [drainAux]
  | succ n => simp [drainAux, h]

/-- Unfolding `drain` one complete frame at a time. -/
theorem drain_some {buf before after : Text}
    (h : splitFrame buf = some (before, after)) :
    drain buf =
      (if jsTrim before = [] then drain after
       else if hasMarker (jsTrim before) then
         (if jsTrim ((jsTrim before).drop 5) = doneLit then ([], [], true)
          else ((jsTrim ((jsTrim before).drop 5)) :: (drain after).1,
            (drain after).2))
       else ((jsTrim before) :: (drain after).1, (drain after).2)) := by
  have hlen := splitFrame_length buf before after h
  unfold drain
  cases hl : buf.length with
  | zero => omega
  | succ n =>
    have ha : after.length ≤ n := by omega
    simp only [drainAux, h]
    rw [drainAux_congr n after.length after ha (Nat.le_refl _)]

/-- Draining a buffer extended on the right first drains the original
buffer; unless the sentinel already stopped the decoder there, it then
continues on the residue extended by the new text.  This is the heart of
chunk-split invariance. -/
theorem drain_append : ∀ (buf extra : Text),
    drain (buf ++ extra) =
      if (drain buf).2.2 then drain buf
      else ((drain buf).1 ++ (drain ((drain buf).2.1 ++ extra)).1,
        (drain ((drain buf).2.1 ++ extra)).2) := by
  have main : ∀ (n : Nat) (buf extra : Text), buf.length ≤ n →
      drain (buf ++ extra) =
        if (drain buf).2.2 then drain buf
        else ((drain buf).1 ++ (drain ((drain buf).2.1 ++ extra)).1,
          (drain ((drain buf).2.1 ++ extra)).2) := by
    intro n
    induction n with
    | zero =>
      intro buf extra h
      have hb : buf = [] := List.length_eq_zero.mp (Nat.le_zero.mp h)
      subst hb
      rw [drain_none (by simp [splitFrame] : splitFrame ([] : Text) = none)]
      simp
    | succ n ih =>
      intro buf extra h
      cases hs : splitFrame buf with
      | none =>
        rw [drain_none hs]
        simp
      | some p =>
        obtain ⟨before, after⟩ := p
        have hlen := splitFrame_length buf before after hs
        have hsa := splitFrame_append buf before after extra hs
        have ha : after.length ≤ n := by omega
        rw [drain_some hs, drain_some hsa]
        by_cases hr : jsTrim before = []
        · simp only [if_pos hr]
          exact ih after extra ha
        · simp only [if_neg hr]
          by_cases hm : hasMarker (jsTrim before)
          · simp only [hm, if_true]
            by_cases hd : jsTrim ((jsTrim before).drop 5) = doneLit
            · simp [hd]
            · simp only [if_neg hd]
              rw [ih after extra ha]
              by_cases hst : (drain after).2.2
              · simp [hst]
              · simp [hst]
          · simp only [hm, if_false]
            rw [ih after extra ha]
            by_cases hst : (drain after).2.2
            · simp [hst]
            · simp [hst]
  intro buf extra
  exact main buf.length buf extra (Nat.le_refl _)

/-- After the sentinel has returned out of the decoder, a chunk is never
observed. -/
theorem processChunk_stopped {s : DecState} (h : s.stopped = true)
    (c : List Nat) : processChunk s c = (s, []) := by
  simp [processChunk, h]

/-- After the sentinel, no payload is ever delivered again. -/
theorem runDec_stopped : ∀ (cs : List (List Nat)) {s : DecState},
    s.stopped = true → runDec s cs = [] := by
  intro cs
  induction cs with
  | nil => intro s h; rfl
  | cons c cs ih =>
    intro s h
    simp only [runDec, processChunk_stopped h, List.nil_append]
    exact ih h

/-- Merging the first two chunks of a stream does not change the delivered
payload sequence. -/
theorem runDec_merge (s : DecState) (c1 c2 : List Nat)
    (cs : List (List Nat)) :
    runDec s (c1 :: c2 :: cs) = runDec s ((c1 ++ c2) :: cs) := by
  by_cases hstop : s.stopped = true
  · simp only [runDec, processChunk_stopped hstop, List.nil_append]
  · simp only [Bool.not_eq_true] at hstop
    simp only [runDec, processChunk, hstop, Bool.false_eq_true, if_false]
    rw [utf8Decode_append]
    dsimp only
    rw [← List.append_assoc s.buffer (utf8Decode s.u c1).2
      (utf8Decode (utf8Decode s.u c1).1 c2).2]
    rw [drain_append (s.buffer ++ (utf8Decode s.u c1).2) (utf8Decode (utf8Decode s.u c1).1 c2).2]
    by_cases hd : (drain (s.buffer ++ (utf8Decode s.u c1).2)).2.2 = true
    · simp only [hd, if_true]
      simp [runDec_stopped]
    · simp only [Bool.not_eq_true] at hd
      simp only [hd, Bool.false_eq_true, if_false]
      simp [List.append_assoc]

/-- A chunk sequence delivers the same payloads as the single chunk made
of all its bytes. -/
theorem runDec_flat (s : DecState) :
    ∀ (cs : List (List Nat)) (c : List Nat),
      runDec s (c :: cs) = runDec s [c ++ listFlat cs] := by
  intro cs
  induction cs with
  | nil => intro c; simp [listFlat]
  | cons c2 cs ih =>
    intro c
    rw [runDec_merge s c c2 cs, ih (c ++ c2)]
    simp [listFlat, List.append_assoc]

/-- Delivered payloads across an appended chunk sequence. -/
theorem runDec_split : ∀ (cs es : List (List Nat)) (s : DecState),
    runDec s (cs ++ es) = runDec s cs ++ runDec (runDecSt s cs) es := by
  intro cs
  induction cs with
  | nil => intro es s; simp [runDec, runDecSt]
  | cons c cs ih =>
    intro es s
    simp only [List.cons_append, List.append_eq, runDec, runDecSt]
    rw [ih es (processChunk s c).1]
    simp [List.append_assoc]

/-! ## Claims about the stream decoder -/

/-- **C1.** For every stream content, feeding it to the stream decoder as one
unsplit byte chunk and feeding it split arbitrarily across N chunk boundaries
(including splits inside a multi-byte character) yields the identical ordered
sequence of payloads delivered to the callback. -/
theorem C1_chunk_split_invariance (chunks : List (List Nat)) :
    decodeStream chunks = decodeStream [listFlat chunks] := by
  cases chunks with
  | nil => decide
  | cons c cs => exact runDec_flat initDec cs c

/-- **C2.** When a frame's marker-stripped payload equals `[DONE]`, decoding
stops and no further callback fires even if more chunks are pending; the
input `"data: Hello\n\ndata: [DONE]\n\n"` produces exactly one callback with
payload `"Hello"` and then none. -/
theorem C2_done_sentinel :
    decodeStream [codes "data: Hello\n\ndata: [DONE]\n\n"] = [codes "Hello"] ∧
    ∀ (cs extra : List (List Nat)), (runDecSt initDec cs).stopped = true →
      decodeStream (cs ++ extra) = decodeStream cs := by
  refine ⟨by decide, ?_⟩
  intro cs extra h
  unfold decodeStream
  rw [runDec_split cs extra initDec, runDec_stopped extra h]
  simp

/-- Witness for C2: after the chunk holding the `[DONE]` sentinel, a further
pending chunk adds no payload. -/
theorem C2_done_sentinel_witness :
    decodeStream
        ([codes "data: Hello\n\ndata: [DONE]\n\n"] ++ [codes "data: W\n\n"]) =
      decodeStream [codes "data: Hello\n\ndata: [DONE]\n\n"] :=
  C2_done_sentinel.2 [codes "data: Hello\n\ndata: [DONE]\n\n"]
    [codes "data: W\n\n"] (by decide)

/-- **C8, counterexample.** The frame text `" hi "` lacks the `data:` marker,
yet the decoder does not deliver it verbatim: it delivers the trimmed text
`"hi"`. -/
theorem C8_counterexample :
    decodeStream [codes " hi \n\n"] = [codes "hi"] ∧ codes "hi" ≠ codes " hi " := by
  exact ⟨by decide, by decide⟩

/-- **C8, amended.** For every complete frame whose whitespace-trimmed text is
nonempty and does not begin with the `data:` marker, the decoder delivers the
trimmed frame text to the callback, then continues with the rest of the
buffer. -/
theorem C8_no_marker_trimmed_verbatim (frame rest : Text)
    (hsep : splitFrame (frame ++ 10 :: 10 :: rest) = some (frame, rest))
    (hne : jsTrim frame ≠ [])
    (hmk : hasMarker (jsTrim frame) = false) :
    drain (frame ++ 10 :: 10 :: rest) =
      ((jsTrim frame) :: (drain rest).1, (drain rest).2) := by
  rw [drain_some hsep]
  simp [hne, hmk]

/-- Witness for the amended C8 at the concrete frame `"hello"`. -/
theorem C8_no_marker_trimmed_verbatim_witness :
    drain (codes "hello" ++ 10 :: 10 :: []) =
      ((jsTrim (codes "hello")) :: (drain []).1, (drain []).2) :=
  C8_no_marker_trimmed_verbatim (codes "hello") [] (by decide) (by decide)
    (by decide)

/-! ## Auth session (`AuthContext` and the `api.ts` token store) -/

/-- A user record as returned by the auth endpoints. -/
structure AuthUser where
  id : String
  email : String
  username : String
deriving DecidableEq

/-- Client auth state: the token persisted in durable storage under the
`access_token` key, and the in-memory `token` and `user` state. -/
structure AuthSt where
  storedToken : Option String
  token : Option String
  user : Option AuthUser
deriving DecidableEq

/-- `setToken`: a truthy token is stored; a falsy one (`null` or the empty
string) removes the stored value. -/
def setToken (st : AuthSt) (t : Option String) : AuthSt :=
  match t with
  | some s =>
    if s = "" then { st with storedToken := none }
    else { st with storedToken := some s }
  | none => { st with storedToken := none }

/-- `logout`: clears the stored token and the `token`/`user` state
synchronously. -/
def logout (st : AuthSt) : AuthSt :=
  { setToken st none with token := none, user := none }

/-- A `fetch` response: its status and its body, handed back to the caller
as-is. -/
structure FetchResponse where
  status : Nat
  body : String
deriving DecidableEq

/-- The patched `window.fetch` installed by `AuthProvider`: it awaits the
original call, triggers `logout()` when the status is 401, and returns the
original response object to the caller. -/
def interceptedFetch (st : AuthSt) (res : FetchResponse) :
    AuthSt × FetchResponse :=
  (if res.status = 401 then logout st else st, res)

/-- **C3.** For every intercepted call whose response carries status 401,
once the call settles the stored token, the token state and the current
user are all empty, and the original response is returned unmodified. -/
theorem C3_401_clears_auth (st : AuthSt) (res : FetchResponse)
    (h : res.status = 401) :
    (interceptedFetch st res).1.storedToken = none ∧
    (interceptedFetch st res).1.token = none ∧
    (interceptedFetch st res).1.user = none ∧
    (interceptedFetch st res).2 = res := by
  simp [interceptedFetch, h, logout, setToken]

/-- Witness for C3 at a concrete authenticated state and 401 response. -/
theorem C3_401_clears_auth_witness :
    (interceptedFetch ⟨some "tok", some "tok", some ⟨"u1", "a@b.com", "ab"⟩⟩
        ⟨401, "unauthorized"⟩).1.storedToken = none ∧
    (interceptedFetch ⟨some "tok", some "tok", some ⟨"u1", "a@b.com", "ab"⟩⟩
        ⟨401, "unauthorized"⟩).1.token = none ∧
    (interceptedFetch ⟨some "tok", some "tok", some ⟨"u1", "a@b.com", "ab"⟩⟩
        ⟨401, "unauthorized"⟩).1.user = none ∧
    (interceptedFetch ⟨some "tok", some "tok", some ⟨"u1", "a@b.com", "ab"⟩⟩
        ⟨401, "unauthorized"⟩).2 = ⟨401, "unauthorized"⟩ :=
  C3_401_clears_auth _ _ rfl

/-- Body of a login response as the client reads it: the fields may each be
missing. -/
structure LoginData where
  access_token : Option String
  user : Option AuthUser
deriving DecidableEq

/-- Outcome of the `POST /auth/login` round trip as observed by
`api.login`: the fetch can reject, the body can fail to parse, the response
can be non-ok (`handleJsonResponse` throws the best available detail), or
ok with parsed data. -/
inductive LoginOutcome where
  | netErr (msg : String)
  | badJson
  | httpErr (detail : String)
  | okResp (data : LoginData)
deriving DecidableEq

/-- `api.login`: on an ok response it stores `data.access_token` via
`setToken` — a missing or empty token therefore clears the store — and
returns the data; every other outcome is a thrown error, reaching no
`setToken` call. -/
def apiLogin (st : AuthSt) (out : LoginOutcome) :
    AuthSt × Except String LoginData :=
  match out with
  | .netErr m => (st, .error m)
  | .badJson => (st, .error "SyntaxError")
  | .httpErr d => (st, .error d)
  | .okResp data => (setToken st data.access_token, .ok data)

/-- `AuthContext.login`: awaits `api.login`; any thrown error yields
`false`; a result without a truthy `access_token` yields `false`; otherwise
the token and user are recorded in state and it yields `true`. -/
def ctxLogin (st : AuthSt) (out : LoginOutcome) : AuthSt × Bool :=
  match apiLogin st out with
  | (st', .error _) => (st', false)
  | (st', .ok data) =>
    match data.access_token with
    | none => (st', false)
    | some t =>
      if t = "" then (st', false)
      else ({ st' with token := some t, user := data.user }, true)

/-- **C6, counterexample.** A success-status response whose body lacks an
access token makes `login` return `false`, yet the stored token does not
survive the attempt: it is cleared. -/
theorem C6_counterexample :
    (ctxLogin ⟨some "old", some "old", none⟩ (.okResp ⟨none, none⟩)).2 =
        false ∧
    (ctxLogin ⟨some "old", some "old", none⟩
        (.okResp ⟨none, none⟩)).1.storedToken ≠ some "old" :=
  ⟨by decide, by decide⟩

/-- **C6, amended.** `login` returns `false` without throwing on every
transport or validation failure; the stored token survives every failure
except an ok response lacking a nonempty access token, which clears it; an
ok response with a nonempty access token is stored, the user recorded, and
`true` returned. -/
theorem C6_login_contract :
    (∀ (st : AuthSt) (m : String), ctxLogin st (.netErr m) = (st, false)) ∧
    (∀ (st : AuthSt), ctxLogin st .badJson = (st, false)) ∧
    (∀ (st : AuthSt) (d : String), ctxLogin st (.httpErr d) = (st, false)) ∧
    (∀ (st : AuthSt) (u : Option AuthUser),
      ctxLogin st (.okResp ⟨none, u⟩) =
        ({ st with storedToken := none }, false)) ∧
    (∀ (st : AuthSt) (u : Option AuthUser),
      ctxLogin st (.okResp ⟨some "", u⟩) =
        ({ st with storedToken := none }, false)) ∧
    (∀ (st : AuthSt) (t : String) (u : Option AuthUser), t ≠ "" →
      ctxLogin st (.okResp ⟨some t, u⟩) = (⟨some t, some t, u⟩, true)) := by
  refine ⟨?_, ?_, ?_, ?_, ?_, ?_⟩
  · intro st m; rfl
  · intro st; rfl
  · intro st d; rfl
  · intro st u; rfl
  · intro st u; rfl
  · intro st t u ht
    simp [ctxLogin, apiLogin, setToken, ht]

/-- Witness for the amended C6: the spec's stub — token `"tok1"`, user
`u1`/`a@b.com` — is stored and `login` returns `true`. -/
theorem C6_login_contract_witness :
    ctxLogin ⟨none, none, none⟩
        (.okResp ⟨some "tok1", some ⟨"u1", "a@b.com", "ab"⟩⟩) =
      (⟨some "tok1", some "tok1", some ⟨"u1", "a@b.com", "ab"⟩⟩, true) :=
  C6_login_contract.2.2.2.2.2 ⟨none, none, none⟩ "tok1"
    (some ⟨"u1", "a@b.com", "ab"⟩) (by decide)

/-! ## Chat session engine (`ChatPage`) -/

/-- Attribution entries (`context_chunks` / `context_documents`) are opaque
to the engine, which only carries them through; they are modelled as opaque
strings. -/
abbrev Attrib := String

/-- Assistant message metadata (`meta`). -/
structure Meta where
  processing_time_ms : Option Nat
  total_tokens : Option Nat
  sources : Option (List Attrib)
deriving DecidableEq

/-- The empty metadata object `{}`. -/
def emptyMeta : Meta := ⟨none, none, none⟩

/-- Message roles. -/
inductive Role where
  | user
  | assistant
deriving DecidableEq

/-- A chat message. -/
structure Message where
  id : String
  role : Role
  text : String
  createdAt : String
  meta : Option Meta
deriving DecidableEq

/-- The response part of a history record; a `response_text` or
`generated_at` that is missing is modelled as the empty string, which is
exactly what JS falsiness collapses it to. -/
structure RespPayload where
  response_text : String
  generated_at : String
  context_chunks : Option (List Attrib)
deriving DecidableEq

/-- One server history record (`hist.queries[i]`), newest first on the
wire. -/
structure HistoryRecord where
  id : String
  query_text : String
  created_at : String
  processing_time_ms : Option Nat
  total_tokens : Option Nat
  response : Option RespPayload
deriving DecidableEq

/-- JS `a || b` on strings: the empty string falls through. -/
def strOr (a b : String) : String := if a = "" then b else a

/-- The user message hydrated from a record. -/
def userMsgOf (now : String) (q : HistoryRecord) : Message :=
  { id := q.id ++ ":u", role := .user, text := q.query_text,
    createdAt := strOr q.created_at now, meta := none }

/-- The assistant message hydrated from a record carrying a response. -/
def asstMsgOf (now : String) (q : HistoryRecord) (r : RespPayload) :
    Message :=
  { id := q.id ++ ":a", role := .assistant, text := r.response_text,
    createdAt := strOr r.generated_at (strOr q.created_at now),
    meta := some ⟨q.processing_time_ms, q.total_tokens, r.context_chunks⟩ }

/-- The push loop of the hydration effect, record by record: a user
message always, an assistant message only when the record's response text
is truthy. -/
def hydrateLoop (now : String) :
    List HistoryRecord → List Message → List Message
  | [], acc => acc
  | q :: qs, acc =>
    hydrateLoop now qs
      (match q.response with
       | some r =>
         if r.response_text = "" then acc ++ [userMsgOf now q]
         else acc ++ [userMsgOf now q] ++ [asstMsgOf now q r]
       | none => acc ++ [userMsgOf now q])

/-- The hydration effect: server records arrive newest-first and are
reversed to oldest-first before the loop. -/
def hydrate (now : String) (queries : List HistoryRecord) : List Message :=
  hydrateLoop now queries.reverse []

/-- Whether the code emits an assistant message for a record: its response
payload must carry nonempty text. -/
def hasRespText (q : HistoryRecord) : Bool :=
  match q.response with
  | some r => r.response_text ≠ ""
  | none => false

/-- The one or two messages a single record contributes to hydration. -/
def recordMsgs (now : String) (q : HistoryRecord) : List Message :=
  userMsgOf now q ::
    (match q.response with
     | some r => if r.response_text = "" then [] else [asstMsgOf now q r]
     | none => [])

/-- The hydration loop only ever appends each record's messages. -/
theorem hydrateLoop_eq : ∀ (l : List HistoryRecord) (now : String)
    (acc : List Message),
    hydrateLoop now l acc = acc ++ listFlat (l.map (recordMsgs now)) := by
  intro l
  induction l with
  | nil => intro now acc; simp [hydrateLoop, listFlat]
  | cons q qs ih =>
    intro now acc
    simp only [hydrateLoop, List.map_cons, listFlat]
    cases hq : q.response with
    | none => rw [ih]; simp [recordMsgs, hq, List.append_assoc]
    | some r =>
      by_cases hr : r.response_text = ""
      · simp only [hq, hr, if_true]
        rw [ih]
        simp [recordMsgs, hq, hr, List.append_assoc]
      · simp only [hq, hr, if_false]
        rw [ih]
        simp [recordMsgs, hq, hr, List.append_assoc]

/-- Each record contributes one message plus one for a truthy response
text. -/
theorem recordMsgs_count : ∀ (l : List HistoryRecord) (now : String),
    (listFlat (l.map (recordMsgs now))).length =
      l.length + (l.filter hasRespText).length := by
  intro l
  induction l with
  | nil => intro now; simp [listFlat]
  | cons q qs ih =>
    intro now
    simp only [List.map_cons, listFlat, List.length_append, ih now,
      List.filter_cons, List.length_cons]
    cases hq : q.response with
    | none => simp [recordMsgs, hq, hasRespText]; omega
    | some r =>
      by_cases hr : r.response_text = ""
      · simp [recordMsgs, hq, hr, hasRespText]; omega
      · simp [recordMsgs, hq, hr, hasRespText]; omega

/-- Filtering commutes with reversal at the level of counts. -/
theorem filter_reverse_length (l : List HistoryRecord)
    (p : HistoryRecord → Bool) :
    (l.reverse.filter p).length = (l.filter p).length := by
  simp [List.filter_reverse]

/-- Hydration is the concatenation of each record's contribution, taken
oldest-first. -/
theorem hydrate_eq (now : String) (qs : List HistoryRecord) :
    hydrate now qs = listFlat (qs.reverse.map (recordMsgs now)) :=
  hydrateLoop_eq qs.reverse now []

/-- **C5, counterexample.** A record carrying a response payload whose text
is empty hydrates to a single user message, so N records of which M carry a
response payload need not yield N+M messages. -/
theorem C5_counterexample :
    (hydrate "T"
        [⟨"1", "q", "t", none, none, some ⟨"", "g", none⟩⟩]).length ≠
      ([(⟨"1", "q", "t", none, none, some ⟨"", "g", none⟩⟩ :
          HistoryRecord)].length +
        (([⟨"1", "q", "t", none, none, some ⟨"", "g", none⟩⟩] :
            List HistoryRecord).filter
          (fun q => q.response.isSome)).length) := by
  decide

/-- **C5, amended.** Hydrating N history records of which M carry a
response payload with nonempty text yields exactly N+M messages,
oldest-first, where each record contributes its user message (query text,
creation time) immediately followed by its assistant message (response
text, generation time, context attributions) exactly when its response
text is nonempty. -/
theorem C5_hydration_shape (now : String) (qs : List HistoryRecord) :
    hydrate now qs = listFlat (qs.reverse.map (recordMsgs now)) ∧
    (hydrate now qs).length =
      qs.length + (qs.filter hasRespText).length := by
  constructor
  · exact hydrate_eq now qs
  · rw [hydrate_eq now qs]
    simp only [recordMsgs_count qs.reverse now, List.length_reverse,
      filter_reverse_length]

/-- **C7, counterexample.** A record with a missing creation time hydrates
with the wall-clock fallback, so re-running hydration at a different time on
the identical record list yields a different message sequence. -/
theorem C7_counterexample :
    hydrate "2024-01-01" [⟨"1", "q", "", none, none, none⟩] ≠
      hydrate "2024-01-02" [⟨"1", "q", "", none, none, none⟩] := by
  decide

/-- The ids a single record contributes, independent of the clock. -/
theorem recordMsgs_ids (now : String) (q : HistoryRecord) :
    (recordMsgs now q).map Message.id =
      (q.id ++ ":u") :: (if hasRespText q then [q.id ++ ":a"] else []) := by
  cases hq : q.response with
  | none => simp [recordMsgs, hq, hasRespText, userMsgOf]
  | some r =>
    by_cases hr : r.response_text = ""
    · simp [recordMsgs, hq, hr, hasRespText, userMsgOf]
    · simp [recordMsgs, hq, hr, hasRespText, userMsgOf, asstMsgOf]

/-- Mapping distributes over `listFlat`. -/
theorem listFlat_map (f : α → β) : ∀ (l : List (List α)),
    (listFlat l).map f = listFlat (l.map (List.map f)) := by
  intro l
  induction l with
  | nil => simp [listFlat]
  | cons x xs ih => simp [listFlat, ih]

/-- A record with a truthy creation time hydrates independently of the
clock. -/
theorem recordMsgs_clock_free (now1 now2 : String) (q : HistoryRecord)
    (h : q.created_at ≠ "") : recordMsgs now1 q = recordMsgs now2 q := by
  have hu : userMsgOf now1 q = userMsgOf now2 q := by
    simp [userMsgOf, strOr, h]
  cases hq : q.response with
  | none => simp [recordMsgs, hq, hu]
  | some r =>
    by_cases hr : r.response_text = ""
    · simp [recordMsgs, hq, hr, hu]
    · have ha : asstMsgOf now1 q r = asstMsgOf now2 q r := by
        simp [asstMsgOf, strOr, h]
      simp [recordMsgs, hq, hr, hu, ha]

/-- **C7, amended.** Hydration is deterministic in the server records: the
message ids are always identical across runs and equal the record id with
the `:u`/`:a` role suffix; the full message sequence is identical across
runs whenever every record carries a nonempty creation time (records
without one fall back to the hydration wall-clock time). -/
theorem C7_hydration_deterministic (now1 now2 : String)
    (qs : List HistoryRecord) :
    ((hydrate now1 qs).map Message.id = (hydrate now2 qs).map Message.id) ∧
    ((hydrate now1 qs).map Message.id =
      listFlat (qs.reverse.map (fun q =>
        (q.id ++ ":u") ::
          (if hasRespText q then [q.id ++ ":a"] else [])))) ∧
    ((∀ q ∈ qs, q.created_at ≠ "") → hydrate now1 qs = hydrate now2 qs) := by
  have hids : ∀ now : String, (hydrate now qs).map Message.id =
      listFlat (qs.reverse.map (fun q =>
        (q.id ++ ":u") ::
          (if hasRespText q then [q.id ++ ":a"] else []))) := by
    intro now
    rw [hydrate_eq now qs, listFlat_map]
    congr 1
    rw [List.map_map]
    exact List.map_congr_left (fun q _ => recordMsgs_ids now q)
  refine ⟨(hids now1).trans (hids now2).symm, hids now1, ?_⟩
  intro h
  rw [hydrate_eq now1 qs, hydrate_eq now2 qs]
  congr 1
  exact List.map_congr_left (fun q hq =>
    recordMsgs_clock_free now1 now2 q (h q (List.mem_reverse.mp hq)))

/-- Witness for the amended C7 at a record with a creation time: the two
runs agree entirely. -/
theorem C7_hydration_deterministic_witness :
    hydrate "2024-01-01" [⟨"1", "q", "t1", none, none, none⟩] =
      hydrate "2024-01-02" [⟨"1", "q", "t1", none, none, none⟩] :=
  (C7_hydration_deterministic "2024-01-01" "2024-01-02"
    [⟨"1", "q", "t1", none, none, none⟩]).2.2 (by decide)

/-! ## The send operation -/

/-- The pieces of `ChatPage` state the send path reads and writes. -/
structure EngineState where
  messages : List Message
  query : String
  loading : Bool
  sessionId : Option String
deriving DecidableEq

/-- `String.prototype.trim` on a JS string value. -/
def strTrim (s : String) : String :=
  String.mk
    (((s.data.dropWhile fun c => jsWhitespace c.toNat).reverse.dropWhile
      fun c => jsWhitespace c.toNat).reverse)

/-- `disableSubmit`: the send is refused when the trimmed input is empty
or a send is already in flight. -/
def disableSubmit (s : EngineState) : Bool :=
  strTrim s.query = "" || s.loading

/-- A dispatched request: the literal query text sent and the placeholder
assistant id the response will be applied to. -/
structure Dispatch where
  queryText : String
  assistantId : String
deriving DecidableEq

/-- The synchronous prefix of `send()`, with the two client-generated
random ids and the current timestamp passed in: the guard, the busy flag,
the optimistic user message, the empty placeholder assistant message, and
the input clear.  Returns the new state and the dispatched request —
`none` when the guard refused. -/
def sendStart (s : EngineState) (uid aid nowIso : String) :
    EngineState × Option Dispatch :=
  if disableSubmit s then (s, none)
  else
    ({ s with
        loading := true,
        messages := s.messages ++
          [{ id := uid, role := .user, text := s.query, createdAt := nowIso,
             meta := none },
           { id := aid, role := .assistant, text := "", createdAt := nowIso,
             meta := some emptyMeta }],
        query := "" },
      some ⟨s.query, aid⟩)

/-- **C4.** A send issued while another is in flight (busy flag set) is a
no-op: the state — message list included — is unchanged and no request is
dispatched. -/
theorem C4_send_while_busy_noop (s : EngineState) (uid aid nowIso : String)
    (h : s.loading = true) : sendStart s uid aid nowIso = (s, none) := by
  simp [sendStart, disableSubmit, h]

/-- Witness for C4: a busy engine with a nonempty input refuses the
send. -/
theorem C4_send_while_busy_noop_witness :
    sendStart ⟨[], "hello", true, none⟩ "u1" "a1" "T" =
      (⟨[], "hello", true, none⟩, none) :=
  C4_send_while_busy_noop ⟨[], "hello", true, none⟩ "u1" "a1" "T" rfl

/-- **C10.** A send issued while the input buffer is empty or
whitespace-only is a no-op even when the engine is idle: no message is
appended, no request is dispatched, and the busy flag stays as it was. -/
theorem C10_send_blank_query_noop (s : EngineState)
    (uid aid nowIso : String) (h : strTrim s.query = "") :
    sendStart s uid aid nowIso = (s, none) := by
  simp [sendStart, disableSubmit, h]

/-- Witness for C10: a whitespace-only input on an idle engine refuses the
send and leaves the busy flag unset. -/
theorem C10_send_blank_query_noop_witness :
    sendStart ⟨[], "  ", false, none⟩ "u1" "a1" "T" =
      (⟨[], "  ", false, none⟩, none) :=
  C10_send_blank_query_noop ⟨[], "  ", false, none⟩ "u1" "a1" "T" (by decide)

/-! ## Settling a send -/

/-- The full JSON result of `POST /queries/rag` as the settle path reads
it. -/
structure RagResult where
  response : Option String
  processing_time_ms : Option Nat
  total_tokens : Option Nat
  context_documents : Option (List Attrib)
deriving DecidableEq

/-- `prev.map(msg => msg.id === aid ? f(msg) : msg)`. -/
def updById (aid : String) (f : Message → Message)
    (msgs : List Message) : List Message :=
  msgs.map fun m => if m.id = aid then f m else m

/-- JS `a || b` on (nonnegative integer) numbers: zero falls through. -/
def numOr (a b : Nat) : Nat := if a = 0 then b else a

/-- The non-streaming settle (`ragQuery` branch): the placeholder's text
becomes the response text, its metadata the server-reported processing
time, token count and attributions. -/
def applyNonStream (msgs : List Message) (aid : String) (res : RagResult) :
    List Message :=
  updById aid
    (fun m =>
      { m with
          text := res.response.getD "",
          meta := some ⟨res.processing_time_ms, res.total_tokens,
            res.context_documents⟩ })
    msgs

/-- One streamed payload (`onChunk` branch): concatenated onto the
placeholder's text; every other message and all metadata are left
untouched. -/
def applyChunk (msgs : List Message) (aid : String) (chunk : String) :
    List Message :=
  updById aid (fun m => { m with text := m.text ++ chunk }) msgs

/-- The per-message elapsed-time update run after a successful settle:
spread the old metadata and keep a truthy recorded processing time,
falling back to the client-measured elapsed milliseconds. -/
def elapsedUpd (ms : Nat) (m : Message) : Message :=
  { m with
      meta := some
        { m.meta.getD emptyMeta with
            processing_time_ms :=
              some (numOr
                ((m.meta.getD emptyMeta).processing_time_ms.getD 0) ms) } }

/-- The elapsed-time pass over the message list after a successful
settle. -/
def applyElapsed (msgs : List Message) (aid : String) (ms : Nat) :
    List Message :=
  updById aid (elapsedUpd ms) msgs

/-- What a successfully settled non-streaming placeholder looks like. -/
def settledNS (res : RagResult) (ms : Nat) (m : Message) : Message :=
  { m with
      text := res.response.getD "",
      meta := some ⟨some (numOr (res.processing_time_ms.getD 0) ms),
        res.total_tokens, res.context_documents⟩ }

/-- Two id-targeted passes compose into one when the first preserves
ids. -/
theorem updById_comp (aid : String) (f g : Message → Message)
    (hg : ∀ m, (g m).id = m.id) : ∀ (msgs : List Message),
    updById aid f (updById aid g msgs) =
      updById aid (fun m => f (g m)) msgs := by
  intro msgs
  induction msgs with
  | nil => rfl
  | cons m ms ih =>
    simp only [updById, List.map_cons] at ih ⊢
    rw [ih]
    by_cases h : m.id = aid
    · simp [h, hg m]
    · simp [h]

/-- **C9, counterexample.** When the server reports a processing time of 0
the settled metadata records the client-measured elapsed time (7 ms here)
instead of the server-reported value. -/
theorem C9_counterexample :
    ((applyElapsed
        (applyNonStream
          [{ id := "a", role := .assistant, text := "", createdAt := "T",
             meta := some emptyMeta }]
          "a" ⟨some "ok", some 0, some 5, none⟩)
        "a" 7).map fun m => (m.meta.getD emptyMeta).processing_time_ms) =
      [some 7] ∧ (some 7 : Option Nat) ≠ some 0 :=
  ⟨by decide, by decide⟩

/-- **C9, amended.** On a successful settle the placeholder records the
server-reported processing time whenever that time is nonzero, and the
client-measured elapsed time when it is absent or zero; the non-streaming
settle also records the server-reported token count and context
attributions; streamed payload chunks never touch metadata, so the
streaming placeholder (created with empty metadata) records the
client-measured elapsed time. -/
theorem C9_settle_metadata :
    (∀ (msgs : List Message) (aid : String) (res : RagResult) (ms : Nat),
      applyElapsed (applyNonStream msgs aid res) aid ms =
        updById aid (settledNS res ms) msgs) ∧
    (∀ (res : RagResult) (ms : Nat) (m : Message) (t : Nat),
      res.processing_time_ms = some t → t ≠ 0 →
      (settledNS res ms m).meta =
        some ⟨some t, res.total_tokens, res.context_documents⟩) ∧
    (∀ (res : RagResult) (ms : Nat) (m : Message),
      res.processing_time_ms.getD 0 = 0 →
      (settledNS res ms m).meta =
        some ⟨some ms, res.total_tokens, res.context_documents⟩) ∧
    (∀ (msgs : List Message) (aid : String) (c : String),
      (applyChunk msgs aid c).map Message.meta = msgs.map Message.meta) ∧
    (∀ (ms : Nat) (m : Message), m.meta = some emptyMeta →
      (elapsedUpd ms m).meta = some ⟨some ms, none, none⟩) := by
  refine ⟨?_, ?_, ?_, ?_, ?_⟩
  · intro msgs aid res ms
    rw [applyElapsed, applyNonStream,
      updById_comp aid (elapsedUpd ms)
        (fun m =>
          { m with
              text := res.response.getD "",
              meta := some ⟨res.processing_time_ms, res.total_tokens,
                res.context_documents⟩ })
        (fun m => rfl) msgs]
    rfl
  · intro res ms m t ht htz
    simp [settledNS, ht, numOr, htz]
  · intro res ms m h
    simp [settledNS, h, numOr]
  · intro msgs aid c
    induction msgs with
    | nil => rfl
    | cons m ms ih =>
      simp only [applyChunk, updById, List.map_cons] at ih ⊢
      rw [ih]
      by_cases h : m.id = aid <;> simp [h]
  · intro ms m h
    simp [elapsedUpd, h, emptyMeta, numOr]

/-- Witness for the amended C9: a nonzero server-reported time of 9 ms
survives a client-measured 7 ms; a placeholder with empty metadata records
the client-measured time. -/
theorem C9_settle_metadata_witness :
    (settledNS ⟨some "ok", some 9, some 5, none⟩ 7
        { id := "a", role := .assistant, text := "", createdAt := "T",
          meta := some emptyMeta }).meta =
      some ⟨some 9, some 5, none⟩ ∧
    (elapsedUpd 7
        { id := "a", role := .assistant, text := "", createdAt := "T",
          meta := some emptyMeta }).meta = some ⟨some 7, none, none⟩ :=
  ⟨C9_settle_metadata.2.1 ⟨some "ok", some 9, some 5, none⟩ 7
      { id := "a", role := .assistant, text := "", createdAt := "T",
        meta := some emptyMeta } 9 rfl (by decide),
    C9_settle_metadata.2.2.2.2 7
      { id := "a", role := .assistant, text := "", createdAt := "T",
        meta := some emptyMeta } rfl⟩

end RagConsole
